import Mathlib

/-
Verification of the dark-matter profile module (gammapy/astro/darkmatter/profiles.py):
the DMProfile hierarchy (Zhao, NFW, Einasto, Isothermal, Burkert, Moore), parameter
resolution, the scale-to-local-density operation, the squared-density line-of-sight
integrand, and the log-spaced quadrature pipeline.

Real-valued quantities are modelled over the reals.  An astropy Quantity is a pair
(value, scale) where scale is the linear conversion factor of its unit to the working
unit (kpc for lengths); densities are carried as values in GeV / cm^3.  Operations
that can raise a Python exception (missing parameter name, numpy broadcast failure,
negative sample count handed to numpy logspace) return Option, with none standing for
the raised exception.
-/

noncomputable section

/-- Names of the model parameters used by the six profile variants.  The source keys
its Parameters collection by these strings; we enumerate them as constructors. -/
inductive PName where
  | r_s
  | rho_s
  | alpha
  | beta
  | gamma
deriving DecidableEq

/-- One entry of a Parameters collection: a name and the current value. -/
structure Param where
  name : PName
  value : ℝ

/-- Name-based lookup in a Parameters collection (first match, as names are unique). -/
def lookupParam : List Param → PName → Option ℝ
  | [], _ => none
  | q :: ps, nm => if q.name = nm then some q.value else lookupParam ps nm

/-- In-place multiplication of the value of the named parameter, as performed by the
statement that multiplies the rho_s value by the computed scale factor. -/
def mulParamValue : List Param → PName → ℝ → List Param
  | [], _, _ => []
  | q :: ps, nm, c =>
    if q.name = nm then ⟨q.name, q.value * c⟩ :: ps else q :: mulParamValue ps nm c

/-- The six concrete DMProfile subclasses. -/
inductive ProfileKind where
  | zhao
  | nfw
  | einasto
  | isothermal
  | burkert
  | moore
deriving DecidableEq

/-- A profile instance: its class together with its owned Parameters collection. -/
structure ProfileState where
  kind : ProfileKind
  params : List Param

/-- DMProfile.LOCAL_DENSITY, in GeV / cm^3. -/
def LOCAL_DENSITY : ℝ := 0.3

/-- DMProfile.DISTANCE_GC, in kpc. -/
def DISTANCE_GC : ℝ := 8.33

/-- ZhaoProfile.evaluate from the source. -/
def ZhaoProfile.evaluate (radius r_s alpha beta gamma rho_s : ℝ) : ℝ :=
  let rr := radius / r_s
  rho_s / (rr ^ gamma * (1 + rr ^ alpha) ^ ((beta - gamma) / alpha))

/-- NFWProfile.evaluate from the source. -/
def NFWProfile.evaluate (radius r_s rho_s : ℝ) : ℝ :=
  let rr := radius / r_s
  rho_s / (rr * (1 + rr) ^ 2)

/-- EinastoProfile.evaluate from the source. -/
def EinastoProfile.evaluate (radius r_s alpha rho_s : ℝ) : ℝ :=
  let rr := radius / r_s
  let exponent := 2 / alpha * (rr ^ alpha - 1)
  rho_s * Real.exp (-1 * exponent)

/-- IsothermalProfile.evaluate from the source. -/
def IsothermalProfile.evaluate (radius r_s rho_s : ℝ) : ℝ :=
  let rr := radius / r_s
  rho_s / (1 + rr ^ 2)

/-- BurkertProfile.evaluate from the source. -/
def BurkertProfile.evaluate (radius r_s rho_s : ℝ) : ℝ :=
  let rr := radius / r_s
  rho_s / ((1 + rr) * (1 + rr ^ 2))

/-- MooreProfile.evaluate from the source. -/
def MooreProfile.evaluate (radius r_s rho_s : ℝ) : ℝ :=
  let rr := radius / r_s
  let rr_ := r_s / radius
  rho_s * rr_ ^ (1.16 : ℝ) * (1 + rr) ^ (-1.84 : ℝ)

/-- ZhaoProfile.__init__: unspecified parameters fall back to the documented defaults;
the Parameters collection is built in the source order r_s, rho_s, alpha, beta, gamma. -/
def ZhaoProfile.init (r_s alpha beta gamma : Option ℝ) (rho_s : ℝ) : ProfileState :=
  ⟨.zhao,
    [⟨.r_s, r_s.getD 24.42⟩, ⟨.rho_s, rho_s⟩, ⟨.alpha, alpha.getD 1⟩,
     ⟨.beta, beta.getD 3⟩, ⟨.gamma, gamma.getD 1⟩]⟩

/-- NFWProfile.__init__. -/
def NFWProfile.init (r_s : Option ℝ) (rho_s : ℝ) : ProfileState :=
  ⟨.nfw, [⟨.r_s, r_s.getD 24.42⟩, ⟨.rho_s, rho_s⟩]⟩

/-- EinastoProfile.__init__ (source order r_s, alpha, rho_s). -/
def EinastoProfile.init (r_s alpha : Option ℝ) (rho_s : ℝ) : ProfileState :=
  ⟨.einasto, [⟨.r_s, r_s.getD 28.44⟩, ⟨.alpha, alpha.getD 0.17⟩, ⟨.rho_s, rho_s⟩]⟩

/-- IsothermalProfile.__init__. -/
def IsothermalProfile.init (r_s : Option ℝ) (rho_s : ℝ) : ProfileState :=
  ⟨.isothermal, [⟨.r_s, r_s.getD 4.38⟩, ⟨.rho_s, rho_s⟩]⟩

/-- BurkertProfile.__init__. -/
def BurkertProfile.init (r_s : Option ℝ) (rho_s : ℝ) : ProfileState :=
  ⟨.burkert, [⟨.r_s, r_s.getD 12.67⟩, ⟨.rho_s, rho_s⟩]⟩

/-- MooreProfile.__init__. -/
def MooreProfile.init (r_s : Option ℝ) (rho_s : ℝ) : ProfileState :=
  ⟨.moore, [⟨.r_s, r_s.getD 30.28⟩, ⟨.rho_s, rho_s⟩]⟩

/-- DMProfile.__call__: build the keyword dictionary from the owned Parameters
collection and dispatch to the variant-specific evaluate.  A missing required name
raises in Python; that failure is none here. -/
def DMProfile.call (p : ProfileState) (r : ℝ) : Option ℝ :=
  match p.kind with
  | .zhao =>
    match lookupParam p.params .r_s, lookupParam p.params .alpha, lookupParam p.params .beta,
        lookupParam p.params .gamma, lookupParam p.params .rho_s with
    | some r_s, some alpha, some beta, some gamma, some rho_s =>
      some (ZhaoProfile.evaluate r r_s alpha beta gamma rho_s)
    | _, _, _, _, _ => none
  | .nfw =>
    match lookupParam p.params .r_s, lookupParam p.params .rho_s with
    | some r_s, some rho_s => some (NFWProfile.evaluate r r_s rho_s)
    | _, _ => none
  | .einasto =>
    match lookupParam p.params .r_s, lookupParam p.params .alpha, lookupParam p.params .rho_s with
    | some r_s, some alpha, some rho_s => some (EinastoProfile.evaluate r r_s alpha rho_s)
    | _, _, _ => none
  | .isothermal =>
    match lookupParam p.params .r_s, lookupParam p.params .rho_s with
    | some r_s, some rho_s => some (IsothermalProfile.evaluate r r_s rho_s)
    | _, _ => none
  | .burkert =>
    match lookupParam p.params .r_s, lookupParam p.params .rho_s with
    | some r_s, some rho_s => some (BurkertProfile.evaluate r r_s rho_s)
    | _, _ => none
  | .moore =>
    match lookupParam p.params .r_s, lookupParam p.params .rho_s with
    | some r_s, some rho_s => some (MooreProfile.evaluate r r_s rho_s)
    | _, _ => none

/-- DMProfile.scale_to_local_density: compute the dimensionless scale factor
LOCAL_DENSITY / self(DISTANCE_GC) and multiply the rho_s parameter value by it. -/
def DMProfile.scale_to_local_density (p : ProfileState) : Option ProfileState :=
  (DMProfile.call p DISTANCE_GC).map fun rhoD =>
    ⟨p.kind, mulParamValue p.params .rho_s (LOCAL_DENSITY / rhoD)⟩

/-- DMProfile._eval_squared at a single radius and separation:
self(radius)^2 * radius / sqrt(radius^2 - (DISTANCE_GC * sin separation)^2). -/
def DMProfile.eval_squared (p : ProfileState) (radius separation : ℝ) : Option ℝ :=
  (DMProfile.call p radius).map fun rho =>
    rho ^ 2 * radius / Real.sqrt (radius ^ 2 - (DISTANCE_GC * Real.sin separation) ^ 2)

/-- Sequence a list of optional reals; none if any entry is none. -/
def seqOption : List (Option ℝ) → Option (List ℝ)
  | [] => some []
  | none :: _ => none
  | some v :: os => (seqOption os).map fun vs => v :: vs

/-- Numpy 1-d broadcasting of a binary elementwise operation: the two arrays must have
equal length or one must have length 1; any other pair of shapes raises, which is none
here.  All array operations in the integrand are elementwise, so applying the scalar
integrand under this broadcast rule reproduces the numpy evaluation. -/
def broadcastMap (f : ℝ → ℝ → Option ℝ) (a b : List ℝ) : Option (List ℝ) :=
  if a.length = b.length then seqOption (List.zipWith f a b)
  else if b.length = 1 then seqOption (a.map fun x => f x (b.headD 0))
  else if a.length = 1 then seqOption (b.map fun y => f (a.headD 0) y)
  else none

/-- DMProfile._eval_squared on a node array and a separation array, with numpy
broadcasting between the two. -/
def DMProfile.eval_squared_vec (p : ProfileState) (radius separation : List ℝ) :
    Option (List ℝ) :=
  broadcastMap (DMProfile.eval_squared p) radius separation

/-- Modelled from the spec: the per-segment value of trapz_loglog
(gammapy.utils.integrate is not under src).  Per section 4.3 step 5 of the spec, the
power law y = a * x^b through the two endpoints is integrated analytically over the
segment, with the degenerate exponent b = -1 handled as the logarithmic segment. -/
def segIntegral (x1 x2 y1 y2 : ℝ) : ℝ :=
  let b := Real.log (y2 / y1) / Real.log (x2 / x1)
  if b = -1 then x1 * y1 * Real.log (x2 / x1)
  else y1 / x1 ^ b * (x2 ^ (b + 1) - x1 ^ (b + 1)) / (b + 1)

/-- Adjacent pairs of a list: [a, b, c] becomes [(a, b), (b, c)]. -/
def adjPairs : List ℝ → List (ℝ × ℝ)
  | x :: y :: rest => (x, y) :: adjPairs (y :: rest)
  | _ => []

/-- Modelled from the spec: trapz_loglog on one-dimensional data, summing the
per-segment power-law integrals over all adjacent node pairs (section 4.3 step 5).
Fewer than two nodes yield an empty segment list and hence 0.  The subsequent
val.sum() in the source is the identity on this already-summed scalar. -/
def trapz_loglog (y x : List ℝ) : ℝ :=
  ((adjPairs x).zip (adjPairs y)).foldr
    (fun seg acc => segIntegral seg.1.1 seg.1.2 seg.2.1 seg.2.2 + acc) 0

/-- An astropy Quantity: a magnitude together with the linear factor converting its
unit to the working unit (kpc for the lengths used here). -/
structure Quantity where
  value : ℝ
  scale : ℝ

/-- Quantity.to_value(unit): the magnitude of the quantity expressed in a unit with
the given conversion factor to the working unit. -/
def toValueIn (q : Quantity) (unitScale : ℝ) : ℝ := q.value * q.scale / unitScale

/-- np.int32 applied to a float: truncation toward zero. -/
def truncToZero (x : ℝ) : ℤ := if 0 ≤ x then ⌊x⌋ else ⌈x⌉

/-- np.logspace(a, b, n): n points 10^(a + i * (b - a) / (n - 1)), endpoints
included; a single point degenerates to 10^a and n = 0 gives the empty array. -/
def logspace (a b : ℝ) (n : ℕ) : List ℝ :=
  (List.range n).map fun i : ℕ => (10 : ℝ) ^ (a + (i : ℝ) * (b - a) / ((n : ℝ) - 1))

/-- The sample count of integrate_spectrum_separation:
np.int32((log10(xmax) - log10(xmin)) * ndecade), with xmax first converted to the
unit of xmin. -/
def nNodes (xmin xmax : Quantity) (ndecade : ℝ) : ℤ :=
  truncToZero ((Real.logb 10 (toValueIn xmax xmin.scale) - Real.logb 10 xmin.value) * ndecade)

/-- The quadrature grid of integrate_spectrum_separation: logspace between the two
log-bounds with nNodes samples, as magnitudes in the unit of xmin. -/
def gridOf (xmin xmax : Quantity) (ndecade : ℝ) : List ℝ :=
  logspace (Real.logb 10 xmin.value) (Real.logb 10 (toValueIn xmax xmin.scale))
    (nNodes xmin xmax ndecade).toNat

/-- DMProfile.integrate_spectrum_separation.  A negative sample count makes numpy
logspace raise, hence none; the grid magnitudes are rescaled to the working unit
before the unit-aware integrand and quadrature consume them. -/
def DMProfile.integrate_spectrum_separation (func : List ℝ → List ℝ → Option (List ℝ))
    (xmin xmax : Quantity) (separation : List ℝ) (ndecade : ℝ) : Option ℝ :=
  if nNodes xmin xmax ndecade < 0 then none
  else
    let x := (gridOf xmin xmax ndecade).map fun v => v * xmin.scale
    match func x separation with
    | none => none
    | some y => some (trapz_loglog y x)

/-- The conversion factor of kpc to cm, as used by the final unit conversion of the
integral to GeV^2 / cm^5. -/
def kpcInCm : ℝ := 3.0856775814913673e21

/-- DMProfile.integral: compose the squared-density integrand with the quadrature
helper and convert the result to GeV^2 / cm^5 (the raw sum carries GeV^2 / cm^6 * kpc). -/
def DMProfile.integral (p : ProfileState) (rmin rmax : Quantity) (separation : List ℝ)
    (ndecade : ℝ) : Option ℝ :=
  (DMProfile.integrate_spectrum_separation (DMProfile.eval_squared_vec p) rmin rmax
      separation ndecade).map fun v => v * kpcInCm

/-- DMProfile.integral with the profile state threaded through explicitly.  The bodies
of integral, integrate_spectrum_separation, _eval_squared and __call__ contain no
assignment to self, so the state component passes through unchanged. -/
def DMProfile.integralS (p : ProfileState) (rmin rmax : Quantity) (separation : List ℝ)
    (ndecade : ℝ) : Option ℝ × ProfileState :=
  (DMProfile.integral p rmin rmax separation ndecade, p)

/-- Multiplying the value of one named parameter leaves every other name untouched. -/
theorem lookup_mulParamValue_ne (ps : List Param) (key nm : PName) (c : ℝ)
    (h : nm ≠ key) : lookupParam (mulParamValue ps key c) nm = lookupParam ps nm := by
  induction ps with
  | nil => rfl
  | cons q ps ih =>
    simp only [mulParamValue]
    by_cases hq : q.name = key
    · rw [if_pos hq]
      have hqn : q.name ≠ nm := fun e => h (e ▸ hq)
      simp [lookupParam, hqn]
    · rw [if_neg hq]
      by_cases hn : q.name = nm
      · simp [lookupParam, hn]
      · simp [lookupParam, hn, ih]

/-- Multiplying the value of one named parameter multiplies exactly its looked-up value. -/
theorem lookup_mulParamValue_self (ps : List Param) (key : PName) (c : ℝ) :
    lookupParam (mulParamValue ps key c) key = (lookupParam ps key).map fun v => v * c := by
  induction ps with
  | nil => rfl
  | cons q ps ih =>
    simp only [mulParamValue]
    by_cases hq : q.name = key
    · rw [if_pos hq]
      simp [lookupParam, hq]
    · rw [if_neg hq]
      simp [lookupParam, hq, ih]

/-- The in-place parameter update preserves the collection's names and their order. -/
theorem names_mulParamValue (ps : List Param) (key : PName) (c : ℝ) :
    (mulParamValue ps key c).map Param.name = ps.map Param.name := by
  induction ps with
  | nil => rfl
  | cons q ps ih =>
    simp only [mulParamValue]
    by_cases hq : q.name = key
    · rw [if_pos hq]; simp
    · rw [if_neg hq]; simp [ih]

/-- Multiplying a parameter value by 1 is the identity on the collection. -/
theorem mulParamValue_one (ps : List Param) (key : PName) :
    mulParamValue ps key 1 = ps := by
  induction ps with
  | nil => rfl
  | cons q ps ih =>
    simp only [mulParamValue]
    by_cases hq : q.name = key
    · rw [if_pos hq]; simp
    · rw [if_neg hq]; rw [ih]

/-- Homogeneity of the Zhao formula in the characteristic density (right factor form). -/
theorem zhao_eval_mul (r r_s alpha beta gamma rho_s c : ℝ) :
    ZhaoProfile.evaluate r r_s alpha beta gamma (rho_s * c)
      = ZhaoProfile.evaluate r r_s alpha beta gamma rho_s * c := by
  simp only [ZhaoProfile.evaluate]; ring

/-- Homogeneity of the NFW formula in the characteristic density (right factor form). -/
theorem nfw_eval_mul (r r_s rho_s c : ℝ) :
    NFWProfile.evaluate r r_s (rho_s * c) = NFWProfile.evaluate r r_s rho_s * c := by
  simp only [NFWProfile.evaluate]; ring

/-- Homogeneity of the Einasto formula in the characteristic density (right factor form). -/
theorem einasto_eval_mul (r r_s alpha rho_s c : ℝ) :
    EinastoProfile.evaluate r r_s alpha (rho_s * c)
      = EinastoProfile.evaluate r r_s alpha rho_s * c := by
  simp only [EinastoProfile.evaluate]; ring

/-- Homogeneity of the isothermal formula in the characteristic density (right factor form). -/
theorem isothermal_eval_mul (r r_s rho_s c : ℝ) :
    IsothermalProfile.evaluate r r_s (rho_s * c)
      = IsothermalProfile.evaluate r r_s rho_s * c := by
  simp only [IsothermalProfile.evaluate]; ring

/-- Homogeneity of the Burkert formula in the characteristic density (right factor form). -/
theorem burkert_eval_mul (r r_s rho_s c : ℝ) :
    BurkertProfile.evaluate r r_s (rho_s * c)
      = BurkertProfile.evaluate r r_s rho_s * c := by
  simp only [BurkertProfile.evaluate]; ring

/-- Homogeneity of the Moore formula in the characteristic density (right factor form). -/
theorem moore_eval_mul (r r_s rho_s c : ℝ) :
    MooreProfile.evaluate r r_s (rho_s * c) = MooreProfile.evaluate r r_s rho_s * c := by
  simp only [MooreProfile.evaluate]; ring

/-- Evaluating after an in-place multiplication of rho_s scales the density by the
same factor, for every profile variant. -/
theorem call_mulRho (p : ProfileState) (r c : ℝ) :
    DMProfile.call ⟨p.kind, mulParamValue p.params .rho_s c⟩ r
      = (DMProfile.call p r).map fun v => v * c := by
  obtain ⟨k, ps⟩ := p
  have hrs := lookup_mulParamValue_ne ps .rho_s .r_s c (by decide)
  have hal := lookup_mulParamValue_ne ps .rho_s .alpha c (by decide)
  have hbe := lookup_mulParamValue_ne ps .rho_s .beta c (by decide)
  have hga := lookup_mulParamValue_ne ps .rho_s .gamma c (by decide)
  have hrh := lookup_mulParamValue_self ps .rho_s c
  cases k with
  | zhao =>
    simp only [DMProfile.call, hrs, hal, hbe, hga, hrh]
    cases lookupParam ps .r_s <;> cases lookupParam ps .alpha <;>
      cases lookupParam ps .beta <;> cases lookupParam ps .gamma <;>
      cases lookupParam ps .rho_s <;> simp [zhao_eval_mul]
  | nfw =>
    simp only [DMProfile.call, hrs, hrh]
    cases lookupParam ps .r_s <;> cases lookupParam ps .rho_s <;> simp [nfw_eval_mul]
  | einasto =>
    simp only [DMProfile.call, hrs, hal, hrh]
    cases lookupParam ps .r_s <;> cases lookupParam ps .alpha <;>
      cases lookupParam ps .rho_s <;> simp [einasto_eval_mul]
  | isothermal =>
    simp only [DMProfile.call, hrs, hrh]
    cases lookupParam ps .r_s <;> cases lookupParam ps .rho_s <;> simp [isothermal_eval_mul]
  | burkert =>
    simp only [DMProfile.call, hrs, hrh]
    cases lookupParam ps .r_s <;> cases lookupParam ps .rho_s <;> simp [burkert_eval_mul]
  | moore =>
    simp only [DMProfile.call, hrs, hrh]
    cases lookupParam ps .r_s <;> cases lookupParam ps .rho_s <;> simp [moore_eval_mul]

/-- Claim C5: for every positive radius and every choice of r_s and rho_s, the Zhao
profile evaluated with (alpha, beta, gamma) = (1, 3, 1) equals the NFW profile exactly
(hence in particular within floating-point tolerance). -/
theorem claim_C5_zhao_reduces_to_nfw (r r_s rho_s : ℝ) (hr : 0 < r) :
    ZhaoProfile.evaluate r r_s 1 3 1 rho_s = NFWProfile.evaluate r r_s rho_s := by
  simp only [ZhaoProfile.evaluate, NFWProfile.evaluate, Real.rpow_one]
  have h2 : ((3 : ℝ) - 1) / 1 = 2 := by norm_num
  rw [h2, Real.rpow_two]

/-- Witness for claim C5 at the concrete input r = 1, r_s = 2, rho_s = 5. -/
theorem claim_C5_witness :
    (0 : ℝ) < 1 ∧ ZhaoProfile.evaluate 1 2 1 3 1 5 = NFWProfile.evaluate 1 2 5 :=
  ⟨by norm_num, claim_C5_zhao_reduces_to_nfw 1 2 5 (by norm_num)⟩

/-- Claim C7: each of the six profile variants evaluated at the scale radius, with its
default shape parameters, yields the closed-form value obtained by substituting
r / r_s = 1 into the documented formula; in particular NFW gives rho_s / 4. -/
theorem claim_C7_value_at_scale_radius (r_s rho_s : ℝ) (h : r_s ≠ 0) :
    ZhaoProfile.evaluate r_s r_s 1 3 1 rho_s = rho_s / 4 ∧
    NFWProfile.evaluate r_s r_s rho_s = rho_s / 4 ∧
    EinastoProfile.evaluate r_s r_s 0.17 rho_s = rho_s ∧
    IsothermalProfile.evaluate r_s r_s rho_s = rho_s / 2 ∧
    BurkertProfile.evaluate r_s r_s rho_s = rho_s / 4 ∧
    MooreProfile.evaluate r_s r_s rho_s = rho_s * 2 ^ (-1.84 : ℝ) := by
  have hrr : r_s / r_s = 1 := div_self h
  refine ⟨?_, ?_, ?_, ?_, ?_, ?_⟩
  · simp only [ZhaoProfile.evaluate, hrr, Real.rpow_one]
    have h2 : ((3 : ℝ) - 1) / 1 = 2 := by norm_num
    rw [h2, Real.rpow_two]
    norm_num
  · simp only [NFWProfile.evaluate, hrr]
    norm_num
  · simp only [EinastoProfile.evaluate, hrr, Real.one_rpow]
    norm_num
  · simp only [IsothermalProfile.evaluate, hrr]
    norm_num
  · simp only [BurkertProfile.evaluate, hrr]
    norm_num
  · simp only [MooreProfile.evaluate, hrr, Real.one_rpow]
    norm_num

/-- Witness for claim C7 at the concrete input r_s = 3, rho_s = 7. -/
theorem claim_C7_witness :
    (3 : ℝ) ≠ 0 ∧
    (ZhaoProfile.evaluate 3 3 1 3 1 7 = 7 / 4 ∧
     NFWProfile.evaluate 3 3 7 = 7 / 4 ∧
     EinastoProfile.evaluate 3 3 0.17 7 = 7 ∧
     IsothermalProfile.evaluate 3 3 7 = 7 / 2 ∧
     BurkertProfile.evaluate 3 3 7 = 7 / 4 ∧
     MooreProfile.evaluate 3 3 7 = 7 * 2 ^ (-1.84 : ℝ)) :=
  ⟨by norm_num, claim_C7_value_at_scale_radius 3 7 (by norm_num)⟩

/-- Claim C8: a Burkert profile constructed with r_s = 12.67 kpc and rho_s = 1 GeV/cm^3
evaluates at radius 0 to exactly rho_s = 1, with no division by zero. -/
theorem claim_C8_burkert_finite_at_origin :
    DMProfile.call (BurkertProfile.init (some 12.67) 1) 0 = some 1 := by
  have h : DMProfile.call (BurkertProfile.init (some 12.67) 1) 0
      = some (BurkertProfile.evaluate 0 12.67 1) := rfl
  rw [h]
  norm_num [BurkertProfile.evaluate]

/-- Claim C10: every profile variant's evaluate is homogeneous of degree 1 in the
characteristic density: scaling rho_s by a positive factor c scales the density by
exactly c. -/
theorem claim_C10_degree_one_in_rho_s (r r_s alpha beta gamma rho_s c : ℝ)
    (hc : 0 < c) :
    ZhaoProfile.evaluate r r_s alpha beta gamma (c * rho_s)
        = c * ZhaoProfile.evaluate r r_s alpha beta gamma rho_s ∧
    NFWProfile.evaluate r r_s (c * rho_s) = c * NFWProfile.evaluate r r_s rho_s ∧
    EinastoProfile.evaluate r r_s alpha (c * rho_s)
        = c * EinastoProfile.evaluate r r_s alpha rho_s ∧
    IsothermalProfile.evaluate r r_s (c * rho_s)
        = c * IsothermalProfile.evaluate r r_s rho_s ∧
    BurkertProfile.evaluate r r_s (c * rho_s) = c * BurkertProfile.evaluate r r_s rho_s ∧
    MooreProfile.evaluate r r_s (c * rho_s) = c * MooreProfile.evaluate r r_s rho_s := by
  refine ⟨?_, ?_, ?_, ?_, ?_, ?_⟩ <;>
    simp only [ZhaoProfile.evaluate, NFWProfile.evaluate, EinastoProfile.evaluate,
      IsothermalProfile.evaluate, BurkertProfile.evaluate, MooreProfile.evaluate] <;>
    ring

/-- Witness for claim C10 at the concrete input r = 2, r_s = 3, alpha = 1, beta = 3,
gamma = 1, rho_s = 5, c = 4. -/
theorem claim_C10_witness :
    (0 : ℝ) < 4 ∧
    (ZhaoProfile.evaluate 2 3 1 3 1 (4 * 5) = 4 * ZhaoProfile.evaluate 2 3 1 3 1 5 ∧
     NFWProfile.evaluate 2 3 (4 * 5) = 4 * NFWProfile.evaluate 2 3 5 ∧
     EinastoProfile.evaluate 2 3 1 (4 * 5) = 4 * EinastoProfile.evaluate 2 3 1 5 ∧
     IsothermalProfile.evaluate 2 3 (4 * 5) = 4 * IsothermalProfile.evaluate 2 3 5 ∧
     BurkertProfile.evaluate 2 3 (4 * 5) = 4 * BurkertProfile.evaluate 2 3 5 ∧
     MooreProfile.evaluate 2 3 (4 * 5) = 4 * MooreProfile.evaluate 2 3 5) :=
  ⟨by norm_num, claim_C10_degree_one_in_rho_s 2 3 1 3 1 5 4 (by norm_num)⟩

/-- Claim C4: for every profile whose density at DISTANCE_GC is defined and nonzero,
scale_to_local_density is idempotent: after one call the profile evaluates at
DISTANCE_GC to exactly LOCAL_DENSITY (hence within relative tolerance 1e-10), and a
second call multiplies rho_s by LOCAL_DENSITY / LOCAL_DENSITY = 1, leaving the state
unchanged. -/
theorem claim_C4_scale_idempotent (p : ProfileState) (rhoD : ℝ)
    (h : DMProfile.call p DISTANCE_GC = some rhoD) (hrho : rhoD ≠ 0) :
    ∃ p', DMProfile.scale_to_local_density p = some p' ∧
      DMProfile.call p' DISTANCE_GC = some LOCAL_DENSITY ∧
      DMProfile.scale_to_local_density p' = some p' := by
  have hscale : DMProfile.scale_to_local_density p
      = some ⟨p.kind, mulParamValue p.params PName.rho_s (LOCAL_DENSITY / rhoD)⟩ := by
    simp [DMProfile.scale_to_local_density, h]
  have hcall : DMProfile.call
        ⟨p.kind, mulParamValue p.params PName.rho_s (LOCAL_DENSITY / rhoD)⟩ DISTANCE_GC
      = some LOCAL_DENSITY := by
    rw [call_mulRho, h]
    simp only [Option.map_some']
    rw [mul_comm, div_mul_cancel₀ _ hrho]
  refine ⟨_, hscale, hcall, ?_⟩
  have hL : LOCAL_DENSITY ≠ 0 := by norm_num [LOCAL_DENSITY]
  simp [DMProfile.scale_to_local_density, hcall, div_self hL, mulParamValue_one]

/-- Witness for claim C4: the default NFW profile, whose density at DISTANCE_GC is the
nonzero value NFWProfile.evaluate 8.33 24.42 1. -/
theorem claim_C4_witness :
    ∃ p', DMProfile.scale_to_local_density (NFWProfile.init none 1) = some p' ∧
      DMProfile.call p' DISTANCE_GC = some LOCAL_DENSITY ∧
      DMProfile.scale_to_local_density p' = some p' :=
  claim_C4_scale_idempotent (NFWProfile.init none 1) (NFWProfile.evaluate 8.33 24.42 1)
    rfl (by norm_num [NFWProfile.evaluate])

/-- Claim C6: for every profile state, radius above the tangent radius and separation,
the squared-density integrand equals rho(r)^2 * r / sqrt(r^2 - (D sin psi)^2) with rho
the profile evaluated at its current parameter values via __call__ and D = 8.33 kpc;
the formula is applied as-is, with no clamping or validation of the constraint. -/
theorem claim_C6_integrand_formula (p : ProfileState) (r psi rho : ℝ)
    (htan : DISTANCE_GC * Real.sin psi < r) (h : DMProfile.call p r = some rho) :
    DMProfile.eval_squared p r psi
      = some (rho ^ 2 * r / Real.sqrt (r ^ 2 - ((8.33 : ℝ) * Real.sin psi) ^ 2)) := by
  simp only [DMProfile.eval_squared, h, Option.map_some']
  rfl

/-- Witness for claim C6: the default Burkert profile at r = 10 kpc, psi = 0. -/
theorem claim_C6_witness :
    DMProfile.eval_squared (BurkertProfile.init none 1) 10 0
      = some ((BurkertProfile.evaluate 10 12.67 1) ^ 2 * 10
          / Real.sqrt (10 ^ 2 - ((8.33 : ℝ) * Real.sin 0) ^ 2)) :=
  claim_C6_integrand_formula (BurkertProfile.init none 1) 10 0
    (BurkertProfile.evaluate 10 12.67 1)
    (by norm_num [DISTANCE_GC, Real.sin_zero]) rfl

/-- Claim C9: the integral pipeline leaves the profile state unchanged for any bounds,
separations and ndecade, while scale_to_local_density is the only mutating operation
and it changes only the value of the rho_s parameter: the kind, the names and their
order, and every other parameter's looked-up value are preserved. -/
theorem claim_C9_frame_conditions (p : ProfileState) (rmin rmax : Quantity)
    (sep : List ℝ) (nd : ℝ) (p' : ProfileState)
    (h : DMProfile.scale_to_local_density p = some p') :
    (DMProfile.integralS p rmin rmax sep nd).2 = p ∧
    p'.kind = p.kind ∧
    p'.params.map Param.name = p.params.map Param.name ∧
    (∀ nm, nm ≠ PName.rho_s → lookupParam p'.params nm = lookupParam p.params nm) ∧
    (∃ c, lookupParam p'.params PName.rho_s
        = (lookupParam p.params PName.rho_s).map fun v => v * c) := by
  obtain ⟨rhoD, hcall, hp'⟩ : ∃ v, DMProfile.call p DISTANCE_GC = some v ∧
      p' = ⟨p.kind, mulParamValue p.params PName.rho_s (LOCAL_DENSITY / v)⟩ := by
    unfold DMProfile.scale_to_local_density at h
    cases hc : DMProfile.call p DISTANCE_GC with
    | none => rw [hc] at h; simp at h
    | some v =>
      rw [hc] at h
      simp only [Option.map_some'] at h
      exact ⟨v, rfl, (Option.some_injective _ h).symm⟩
  subst hp'
  refine ⟨rfl, rfl, names_mulParamValue _ _ _, fun nm hnm =>
    lookup_mulParamValue_ne _ _ _ _ hnm, ⟨_, lookup_mulParamValue_self _ _ _⟩⟩

/-- Witness for claim C9: the default NFW profile with concrete bounds 1..100 kpc,
one separation and ndecade = 100; the scaled state is given explicitly. -/
theorem claim_C9_witness :
    (DMProfile.integralS (NFWProfile.init none 1) ⟨1, 1⟩ ⟨100, 1⟩ [0.1] 100).2
        = NFWProfile.init none 1 ∧
    (ProfileState.mk ProfileKind.nfw
        [⟨PName.r_s, 24.42⟩,
         ⟨PName.rho_s, 1 * (LOCAL_DENSITY / NFWProfile.evaluate DISTANCE_GC 24.42 1)⟩]).kind
      = (NFWProfile.init none 1).kind ∧
    (ProfileState.mk ProfileKind.nfw
        [⟨PName.r_s, 24.42⟩,
         ⟨PName.rho_s, 1 * (LOCAL_DENSITY / NFWProfile.evaluate DISTANCE_GC 24.42 1)⟩]).params.map
          Param.name
      = (NFWProfile.init none 1).params.map Param.name ∧
    (∀ nm, nm ≠ PName.rho_s →
      lookupParam (ProfileState.mk ProfileKind.nfw
        [⟨PName.r_s, 24.42⟩,
         ⟨PName.rho_s, 1 * (LOCAL_DENSITY / NFWProfile.evaluate DISTANCE_GC 24.42 1)⟩]).params nm
        = lookupParam (NFWProfile.init none 1).params nm) ∧
    (∃ c, lookupParam (ProfileState.mk ProfileKind.nfw
        [⟨PName.r_s, 24.42⟩,
         ⟨PName.rho_s, 1 * (LOCAL_DENSITY / NFWProfile.evaluate DISTANCE_GC 24.42 1)⟩]).params
          PName.rho_s
        = (lookupParam (NFWProfile.init none 1).params PName.rho_s).map fun v => v * c) :=
  claim_C9_frame_conditions (NFWProfile.init none 1) ⟨1, 1⟩ ⟨100, 1⟩ [0.1] 100 _ rfl

/-- The log-spaced grid has exactly the requested number of nodes. -/
theorem logspace_length (a b : ℝ) (n : ℕ) : (logspace a b n).length = n := by
  rw [logspace, List.length_map, List.length_range]

/-- Claim C2, counterexample: with xmin = 1, xmax = 10^(3/2) (both in the same unit)
and ndecade = 1, the decade formula gives 1.5, whose rounding is 2, but the grid built
by the code has np.int32(1.5) = 1 node; the claimed round semantics is wrong. -/
theorem claim_C2_counterexample :
    (gridOf ⟨1, 1⟩ ⟨(10 : ℝ) ^ ((3 : ℝ) / 2), 1⟩ 1).length = 1 ∧
    round ((Real.logb 10 (toValueIn ⟨(10 : ℝ) ^ ((3 : ℝ) / 2), 1⟩ 1)
        - Real.logb 10 (1 : ℝ)) * 1) = 2 := by
  have hval : toValueIn ⟨(10 : ℝ) ^ ((3 : ℝ) / 2), 1⟩ 1 = (10 : ℝ) ^ ((3 : ℝ) / 2) := by
    simp [toValueIn]
  have hlogb : Real.logb 10 ((10 : ℝ) ^ ((3 : ℝ) / 2)) = 3 / 2 :=
    Real.logb_rpow (by norm_num) (by norm_num)
  constructor
  · rw [gridOf, logspace_length, nNodes, hval, hlogb, Real.logb_one]
    have htr : truncToZero ((3 / 2 - 0) * 1) = 1 := by
      rw [truncToZero, if_pos (by norm_num)]
      rw [Int.floor_eq_iff]
      constructor <;> norm_num
    rw [htr]
    rfl
  · rw [hval, hlogb, Real.logb_one, round_eq]
    rw [Int.floor_eq_iff]
    constructor <;> norm_num

/-- Claim C2, amended: for bounds with 0 < xmin and xmax above xmin after conversion
to xmin's unit, and positive ndecade, the quadrature grid has exactly
np.int32((log10 xmax - log10 xmin) * ndecade) nodes, i.e. the decade count is
truncated toward zero (here equal to the floor, the product being nonnegative),
not rounded to the nearest integer. -/
theorem claim_C2_amended_node_count (xmin xmax : Quantity) (ndecade : ℝ)
    (h1 : 0 < xmin.value) (h2 : xmin.value < toValueIn xmax xmin.scale)
    (h3 : 0 < ndecade) :
    (gridOf xmin xmax ndecade).length
      = (⌊(Real.logb 10 (toValueIn xmax xmin.scale) - Real.logb 10 xmin.value)
            * ndecade⌋).toNat := by
  have hlt : Real.logb 10 xmin.value < Real.logb 10 (toValueIn xmax xmin.scale) :=
    Real.logb_lt_logb (by norm_num) h1 h2
  have hpos : 0 ≤ (Real.logb 10 (toValueIn xmax xmin.scale)
      - Real.logb 10 xmin.value) * ndecade :=
    mul_nonneg (by linarith) h3.le
  rw [gridOf, logspace_length, nNodes, truncToZero, if_pos hpos]

/-- Witness for the amended claim C2: bounds 1 kpc to 100 kpc, ndecade = 10. -/
theorem claim_C2_amended_witness :
    (0 : ℝ) < 1 ∧ (1 : ℝ) < toValueIn ⟨100, 1⟩ 1 ∧ (0 : ℝ) < 10 ∧
    (gridOf ⟨1, 1⟩ ⟨100, 1⟩ 10).length
      = (⌊(Real.logb 10 (toValueIn ⟨100, 1⟩ 1) - Real.logb 10 1) * 10⌋).toNat :=
  ⟨by norm_num, by norm_num [toValueIn], by norm_num,
    claim_C2_amended_node_count ⟨1, 1⟩ ⟨100, 1⟩ 10 (by norm_num)
      (by norm_num [toValueIn]) (by norm_num)⟩

/-- Claim C3, counterexample: at the degenerate bounds rmin = rmax = 1 kpc (a caller
error per the spec) the integral of the default NFW profile does not raise any
invalid-bounds error: the zero-decade span yields an empty grid and the call silently
returns the value 0. -/
theorem claim_C3_counterexample :
    DMProfile.integral (NFWProfile.init none 1) ⟨1, 1⟩ ⟨1, 1⟩ [0.1] 10000 = some 0 := by
  have hn : nNodes ⟨1, 1⟩ ⟨1, 1⟩ 10000 = 0 := by
    have : toValueIn ⟨(1 : ℝ), 1⟩ 1 = 1 := by simp [toValueIn]
    rw [nNodes, this, Real.logb_one]
    rw [truncToZero, if_pos (by norm_num)]
    norm_num
  rw [DMProfile.integral, DMProfile.integrate_spectrum_separation]
  rw [if_neg (by rw [hn]; decide)]
  have hgrid : gridOf ⟨(1 : ℝ), 1⟩ ⟨(1 : ℝ), 1⟩ 10000 = [] := by
    rw [gridOf, hn]
    rfl
  rw [hgrid]
  simp only [List.map_nil]
  rw [show DMProfile.eval_squared_vec (NFWProfile.init none 1) [] [0.1] = some [] from rfl]
  simp [trapz_loglog, adjPairs]

/-- Claim C3, amended: the code performs no validation of the integration bounds; for
any profile and any pair of equal bounds (expressed as the same quantity, with a
nonzero unit scale) and a single separation, the integral silently returns 0 instead
of raising an invalid-bounds error. -/
theorem claim_C3_amended_silent_zero (p : ProfileState) (q : Quantity)
    (psi ndecade : ℝ) (hs : q.scale ≠ 0) :
    DMProfile.integral p q q [psi] ndecade = some 0 := by
  have hn : nNodes q q ndecade = 0 := by
    have hv : toValueIn q q.scale = q.value := by
      rw [toValueIn, mul_div_cancel_right₀ _ hs]
    rw [nNodes, hv]
    rw [truncToZero, if_pos (by norm_num)]
    norm_num
  rw [DMProfile.integral, DMProfile.integrate_spectrum_separation]
  rw [if_neg (by rw [hn]; decide)]
  have hgrid : gridOf q q ndecade = [] := by
    rw [gridOf, hn]
    rfl
  rw [hgrid]
  simp only [List.map_nil]
  rw [show DMProfile.eval_squared_vec p [] [psi] = some [] from rfl]
  simp [trapz_loglog, adjPairs]

/-- Witness for the amended claim C3: the default Einasto profile with both bounds
equal to 5 kpc. -/
theorem claim_C3_amended_witness :
    (1 : ℝ) ≠ 0 ∧
    DMProfile.integral (EinastoProfile.init none none 1) ⟨5, 1⟩ ⟨5, 1⟩ [0.2] 50
      = some 0 :=
  ⟨by norm_num,
    claim_C3_amended_silent_zero (EinastoProfile.init none none 1) ⟨5, 1⟩ 0.2 50
      (by norm_num)⟩

/-- Claim C1: with an array of two angular separations and a grid of 10 nodes (bounds
1 to 10 kpc, ndecade = 10), the batched integral cannot broadcast the length-10 node
array against the length-2 separation array and raises, instead of returning an array
of two per-separation integrals; none models the raised numpy broadcast error. -/
theorem claim_C1_batch_raises :
    DMProfile.integral (NFWProfile.init none 1) ⟨1, 1⟩ ⟨10, 1⟩ [0.1, 0.2] 10 = none := by
  have hn : nNodes ⟨1, 1⟩ ⟨10, 1⟩ 10 = 10 := by
    have hv : toValueIn ⟨(10 : ℝ), 1⟩ 1 = 10 := by simp [toValueIn]
    rw [nNodes, hv, Real.logb_one, Real.logb_self_eq_one (by norm_num)]
    rw [truncToZero, if_pos (by norm_num)]
    have : ((1 : ℝ) - 0) * 10 = 10 := by norm_num
    rw [this]
    rw [Int.floor_eq_iff]
    constructor <;> norm_num
  rw [DMProfile.integral, DMProfile.integrate_spectrum_separation]
  rw [if_neg (by rw [hn]; decide)]
  have hlen : (gridOf ⟨(1 : ℝ), 1⟩ ⟨(10 : ℝ), 1⟩ 10).length = 10 := by
    rw [gridOf, logspace_length, hn]
    rfl
  simp [DMProfile.eval_squared_vec, broadcastMap, hlen]

end
